import Mathlib

/-!
Verification of the OCR-QCM desktop tool (src/app_ctk.py, src/llm_client.py,
src/ocr.py, src/config.py) against its design document.

The Python sources are shallowly embedded: dictionaries become ordered
association lists with Python's update-in-place/append semantics, the
prompt JSON file becomes an explicit file-state value, network and screen
collaborators become explicit oracles, and each side-effecting routine
returns the trace of observable events it performs together with the
exception (if any) that escapes it.
-/

/-- Embedding of Python's `str.strip()` with no argument: leading and
trailing whitespace characters are removed. -/
def pyStrip (s : String) : String :=
  ⟨((s.data.dropWhile Char.isWhitespace).reverse.dropWhile Char.isWhitespace).reverse⟩

/-! ## Python dict model

A Python `dict` is an insertion-ordered map with unique keys.  We model it
as an association list; `dInsert` mirrors `d[k] = v` (update in place when
the key exists, append otherwise) and `dictUpdate` mirrors `d.update(m)`. -/

def dKeys {α : Type} (d : List (String × α)) : List String := d.map Prod.fst

def dGet? {α : Type} : List (String × α) → String → Option α
  | [], _ => none
  | p :: r, k => if p.1 = k then some p.2 else dGet? r k

def dInsert {α : Type} (d : List (String × α)) (k : String) (v : α) : List (String × α) :=
  if k ∈ dKeys d then d.map (fun p => if p.1 = k then (p.1, v) else p) else d ++ [(k, v)]

def dictUpdate {α : Type} (d m : List (String × α)) : List (String × α) :=
  m.foldl (fun acc p => dInsert acc p.1 p.2) d

def dRemove {α : Type} (d : List (String × α)) (k : String) : List (String × α) :=
  d.filter (fun p => p.1 ≠ k)

/-! ## JSON string layer

`save_prompts` writes the mapping with `json.dump(..., ensure_ascii=False)`
and `load_prompts` reads it back with `json.load`, both over UTF-8.  We
model the serialized object as a list of escaped key/value strings:
`jsonEscapeChar` performs the escaping the library applies to a string
character under `ensure_ascii=False` (non-ASCII characters pass through
verbatim), and `jsonUnescapeChars` is the parse direction. -/

def jsonEscapeChar (c : Char) : List Char :=
  if c = '"' then ['\\', '"']
  else if c = '\\' then ['\\', '\\']
  else if c = '\n' then ['\\', 'n']
  else if c = '\t' then ['\\', 't']
  else if c = '\r' then ['\\', 'r']
  else [c]

def jsonEscape (s : String) : String := ⟨s.data.flatMap jsonEscapeChar⟩

def jsonUnescapeChars : List Char → Option (List Char)
  | [] => some []
  | '\\' :: rest =>
    match rest with
    | [] => none
    | c :: rest2 =>
      match jsonUnescapeChars rest2 with
      | none => none
      | some tail =>
        if c = '"' then some ('"' :: tail)
        else if c = '\\' then some ('\\' :: tail)
        else if c = 'n' then some ('\n' :: tail)
        else if c = 't' then some ('\t' :: tail)
        else if c = 'r' then some ('\r' :: tail)
        else none
  | c :: rest => (jsonUnescapeChars rest).map (c :: ·)

def jsonUnescape (s : String) : Option String :=
  (jsonUnescapeChars s.data).map (fun l => ⟨l⟩)

/-! ## PromptStore (src/app_ctk.py lines 41, 63-86)

`PROMPTS_FILE` on disk is either absent, unreadable/non-JSON, JSON but not
an object, or a JSON object whose keys and values are escaped strings. -/

inductive PromptsFile : Type
  | absent : PromptsFile
  | malformed : PromptsFile
  | notDict : PromptsFile
  | stored (raw : List (String × String)) : PromptsFile
deriving DecidableEq

def decodeEntry (p : String × String) : Option (String × String) :=
  match jsonUnescape p.1, jsonUnescape p.2 with
  | some k, some v => some (k, v)
  | _, _ => none

def decodeStored : List (String × String) → Option (List (String × String))
  | [] => some []
  | p :: r =>
    match decodeEntry p, decodeStored r with
    | some q, some rest => some (q :: rest)
    | _, _ => none

/-- Hardcoded fallback dictionary of lines 76-81 of src/app_ctk.py. -/
def defaultPrompts : List (String × String) :=
  [("Default (General Reasoning)",
    "You are a logic expert. Analyze the OCR text and return ONLY the text of the correct choice."),
   ("TOEIC (Reading)",
    "Act like a TOEIC grader. Given OCR (question + choices), return ONLY the letter and text of the correct choice. If ambiguous, pick the most plausible."),
   ("Numeric Aptitude (Math/Logic)",
    "Solve mentally step-by-step but return ONLY the exact option among the choices."),
   ("Data Sufficiency",
    "Evaluate (1) alone, (2) alone, and (1)&(2) together. Return ONLY the correct option.")]

/-- Embedding of `load_prompts` (lines 63-82).  `config` is `CONFIG_PROMPTS`
from src/config.py when it is a dict (`none` models a non-dict value); the
file layer is merged over it when present and well formed, and a parse
failure of the file is swallowed (`except Exception: pass`). -/
def load_prompts (config : Option (List (String × String))) (file : PromptsFile) :
    List (String × String) :=
  let data :=
    match config with
    | some c => dictUpdate [] c
    | none => []
  let data :=
    match file with
    | PromptsFile.stored raw =>
      match decodeStored raw with
      | some extra => dictUpdate data extra
      | none => data
    | _ => data
  if data = [] then defaultPrompts else data

/-- Embedding of `save_prompts` (lines 84-86): the whole mapping is written
as one JSON object with `ensure_ascii=False`. -/
def save_prompts (prompts : List (String × String)) : PromptsFile :=
  PromptsFile.stored (prompts.map (fun p => (jsonEscape p.1, jsonEscape p.2)))

/-! ## Fresh prompt names (src/app_ctk.py lines 509-515)

`_prompt_new` runs `name = base; i = 1; while name in self.prompts: i += 1;
name = f"{base} {i}"`.  `natDecGo`/`natDecStr` embed Python's decimal
rendering of `i`; `newNameFrom` embeds the while loop (fuel-bounded, the
fuel below is large enough that the loop always exits at a free name). -/

def natDecGo : Nat → Nat → List Char
  | 0, _ => []
  | fuel + 1, n =>
    if n < 10 then [Nat.digitChar n]
    else natDecGo fuel (n / 10) ++ [Nat.digitChar (n % 10)]

def natDecStr (n : Nat) : String := ⟨natDecGo (n + 1) n⟩

def candidate (k : Nat) : String :=
  if k = 0 then "New Prompt" else "New Prompt " ++ natDecStr (k + 1)

def newNameFrom (ks : List String) : Nat → Nat → String
  | 0, i => candidate i
  | fuel + 1, i => if candidate i ∈ ks then newNameFrom ks fuel (i + 1) else candidate i

def maxKeyLen (ks : List String) : Nat := ks.foldr (fun s m => max s.length m) 0

def promptNewName (ks : List String) : String :=
  newNameFrom ks (10 ^ (maxKeyLen ks + 1)) 0

/-! ## Prompt editor operations (src/app_ctk.py lines 509-535)

The state is the in-memory dict `self.prompts` plus the persisted
`prompts.json`; UI refresh calls do not touch either. -/

structure PromptApp : Type where
  prompts : List (String × String)
  file : PromptsFile
deriving DecidableEq

/-- Embedding of `_prompt_new` (lines 509-515): inserts a fresh key with a
placeholder body; it does not call `save_prompts`. -/
def prompt_new (s : PromptApp) : PromptApp :=
  let name := promptNewName (dKeys s.prompts)
  { s with prompts := dInsert s.prompts name "Write your prompt here…" }

/-- Embedding of `_prompt_save` (lines 517-525): `nameVar` and `textVar` are
the entry and textbox contents; both are stripped, an empty name aborts,
otherwise the entry is written and the whole store saved. -/
def prompt_save (s : PromptApp) (nameVar textVar : String) : PromptApp :=
  let name := pyStrip nameVar
  if name = "" then s
  else
    let prompts := dInsert s.prompts name (pyStrip textVar)
    { prompts := prompts, file := save_prompts prompts }

/-- Embedding of `_prompt_delete` (lines 527-535): removes the selected key
if present and saves; otherwise nothing happens. -/
def prompt_delete (s : PromptApp) (key : String) : PromptApp :=
  if key ∈ dKeys s.prompts then
    let prompts := dRemove s.prompts key
    { prompts := prompts, file := save_prompts prompts }
  else s

/-! ## LLMClient.complete (src/llm_client.py lines 47-76)

`complete` first renders `prompt_template.format(text=text)`.  `pyFormatGo`
embeds CPython's format-string scanner restricted to what the template
language of this program uses: literal text, doubled braces, and a simple
replacement field.  A lone brace or an unterminated field raises
`ValueError`, a field other than `text` raises a lookup error; conversion
and format-spec suffixes are not modeled.  `none` models a raised
exception. -/

def pyFormatGo (td : List Char) : Bool → List Char → List Char → Option (List Char)
  | false, _, [] => some []
  | false, acc, '{' :: '{' :: r => (pyFormatGo td false acc r).map ('{' :: ·)
  | false, acc, '}' :: '}' :: r => (pyFormatGo td false acc r).map ('}' :: ·)
  | false, _, '}' :: _ => none
  | false, _, '{' :: r => pyFormatGo td true [] r
  | false, acc, c :: r => (pyFormatGo td false acc r).map (c :: ·)
  | true, _, [] => none
  | true, acc, '}' :: r =>
    if acc.reverse = ['t', 'e', 'x', 't'] then (pyFormatGo td false [] r).map (td ++ ·)
    else none
  | true, acc, c :: r => pyFormatGo td true (c :: acc) r

def renderPrompt (tmpl text : String) : Option String :=
  (pyFormatGo text.data false [] tmpl.data).map (fun l => ⟨l⟩)

structure OpenAIMessage : Type where
  content : Option String
deriving DecidableEq

structure OpenAIChoice : Type where
  message : OpenAIMessage
deriving DecidableEq

structure OpenAIResp : Type where
  choices : List OpenAIChoice
deriving DecidableEq

/-- Blocks of an Anthropic response: an SDK object with a `.text`
attribute, a dict of type `"text"` (whose `"text"` key may be absent), or
anything else (skipped by the loop at lines 67-71). -/
inductive AnthropicBlock : Type
  | obj (text : String) : AnthropicBlock
  | dictText (text : Option String) : AnthropicBlock
  | other : AnthropicBlock
deriving DecidableEq

/-- Vendor response shapes; the constructor selects the provider branch of
`complete`.  `anthropic none` models a message whose `content` attribute is
absent or `None`; `gemini none` models a response without a `text` field. -/
inductive VendorResp : Type
  | openai (r : OpenAIResp) : VendorResp
  | anthropic (content : Option (List AnthropicBlock)) : VendorResp
  | gemini (text : Option String) : VendorResp
deriving DecidableEq

inductive CompleteErr : Type
  | formatError : CompleteErr
  | indexError : CompleteErr
deriving DecidableEq

deriving instance DecidableEq for Except

structure CompleteOutcome : Type where
  result : Except CompleteErr String
  vendorCalls : List String
deriving DecidableEq

def anthropicParts : List AnthropicBlock → List String
  | [] => []
  | AnthropicBlock.obj t :: r => t :: anthropicParts r
  | AnthropicBlock.dictText t :: r => t.getD "" :: anthropicParts r
  | AnthropicBlock.other :: r => anthropicParts r

/-- Embedding of `LLMClient.complete`.  `vendorCalls` records the prompts
sent to the vendor SDK (at most one); a format failure at line 48 happens
before any vendor call.  The OpenAI branch indexes `resp.choices[0]`, so an
empty choice list raises `IndexError`. -/
def complete (tmpl text : String) (resp : VendorResp) : CompleteOutcome :=
  match renderPrompt tmpl text with
  | none => { result := Except.error CompleteErr.formatError, vendorCalls := [] }
  | some prompt =>
    { vendorCalls := [prompt],
      result :=
        match resp with
        | VendorResp.openai r =>
          match r.choices with
          | [] => Except.error CompleteErr.indexError
          | ch :: _ => Except.ok (pyStrip (ch.message.content.getD ""))
        | VendorResp.anthropic content =>
          Except.ok (pyStrip (String.intercalate "\n" (anthropicParts (content.getD []))))
        | VendorResp.gemini t => Except.ok (pyStrip (t.getD "")) }

/-! ## Answer dispatch (src/app_ctk.py lines 635-656, 680-687, 710-718)

`_post_answer` fans the answer out to the enabled sinks.  Each sink's
collaborator is an oracle in `SinkWorld`; `Ev` is the trace of observable
actions (`telegramCall`/`webhookCall` are the network POSTs).  The returned
`Option DispatchErr` is the exception escaping `_post_answer`: clipboard,
webhook and messaging deliveries sit inside `try/except`, while the
`_append_log` call at line 642 does not. -/

inductive Ev : Type
  | uiAnswer : Ev
  | clipboardWrite (ok : Bool) : Ev
  | diskWrite (ok : Bool) : Ev
  | webhookCall : Ev
  | webhookOutcome (ok : Bool) : Ev
  | telegramCall : Ev
  | telegramOutcome (ok : Bool) : Ev
deriving DecidableEq

inductive DispatchErr : Type
  | diskWriteFailed : DispatchErr
deriving DecidableEq

inductive TgErr : Type
  | missingCredentials : TgErr
  | httpRejected : TgErr
  | transportFailed : TgErr
deriving DecidableEq

structure OutputSettings : Type where
  do_copy_clipboard : Bool
  do_auto_save : Bool
  do_send_discord : Bool
  webhook_url : String
  do_send_telegram : Bool
  telegram_token : String
  telegram_chat : String
deriving DecidableEq

structure SinkWorld : Type where
  clipboardOk : Bool
  diskOk : Bool
  webhook : Option Nat
  telegram : Option Nat
deriving DecidableEq

/-- Does the webhook POST of `w` deliver (no transport exception and a
status strictly below 300)? -/
def webhookDelivered (w : SinkWorld) : Bool :=
  match w.webhook with
  | some st => decide (st < 300)
  | none => false

/-- Does the messaging-bot POST of `w` deliver? -/
def telegramDelivered (w : SinkWorld) : Bool :=
  match w.telegram with
  | some st => decide (st < 300)
  | none => false

/-- Embedding of `_send_telegram_message` (lines 710-718): blank token or
chat id raises before the URL is built, so no POST happens; otherwise the
POST runs and a status of 300 or more raises. -/
def send_telegram_message (token chat : String) (transport : Option Nat) :
    List Ev × Option TgErr :=
  if pyStrip token = "" ∨ pyStrip chat = "" then ([], some TgErr.missingCredentials)
  else
    match transport with
    | some st =>
      if 300 ≤ st then ([Ev.telegramCall], some TgErr.httpRejected)
      else ([Ev.telegramCall], none)
    | none => ([Ev.telegramCall], some TgErr.transportFailed)

/-- Embedding of `_append_log` (lines 680-687): directory creation and the
file write either succeed together or raise. -/
def append_log (diskOk : Bool) : List Ev × Option DispatchErr :=
  if diskOk then ([Ev.diskWrite true], none)
  else ([Ev.diskWrite false], some DispatchErr.diskWriteFailed)

/-- Embedding of `_post_answer` (lines 635-656). -/
def post_answer (s : OutputSettings) (w : SinkWorld) : List Ev × Option DispatchErr :=
  let evs := [Ev.uiAnswer]
  let evs := evs ++ (if s.do_copy_clipboard then [Ev.clipboardWrite w.clipboardOk] else [])
  let logStep := if s.do_auto_save then append_log w.diskOk else ([], none)
  match logStep with
  | (evs2, some e) => (evs ++ evs2, some e)
  | (evs2, none) =>
    let evs := evs ++ evs2
    let evs := evs ++
      (if s.do_send_discord ∧ pyStrip s.webhook_url ≠ "" then
        Ev.webhookCall ::
          (match w.webhook with
           | some st => if 300 ≤ st then [Ev.webhookOutcome false] else [Ev.webhookOutcome true]
           | none => [Ev.webhookOutcome false])
       else [])
    let evs := evs ++
      (if s.do_send_telegram ∧ pyStrip s.telegram_token ≠ "" ∧ pyStrip s.telegram_chat ≠ "" then
        (let r := send_telegram_message s.telegram_token s.telegram_chat w.telegram
         r.1 ++ (match r.2 with
                 | some _ => [Ev.telegramOutcome false]
                 | none => [Ev.telegramOutcome true]))
       else [])
    (evs, none)

/-! ## Capture pipeline (src/ocr.py lines 13-18, src/app_ctk.py lines 559-579)

`grab_image` forwards its region to `mss.grab` unchanged; `_capture_thread`
wraps the whole pass in one `try/except` that reports a capture error.
Image handles are abstract naturals; oracles returning `none` model a
raised exception in the collaborator. -/

structure Region : Type where
  left : Int
  top : Int
  width : Int
  height : Int
deriving DecidableEq

structure CaptureEnv : Type where
  screen : Region → Option Nat
  ocr : Nat → Option String

inductive CapEv : Type
  | grabCall (r : Region) : CapEv
  | ocrCall (img : Nat) : CapEv
  | uiPreview : CapEv
  | uiText (t : String) : CapEv
  | uiStatus (ok : Bool) : CapEv
deriving DecidableEq

/-- Embedding of `grab_image`: the bounding box is handed to the screen
collaborator with no dimension check. -/
def grab_image (r : Region) (env : CaptureEnv) : Option Nat × List CapEv :=
  (env.screen r, [CapEv.grabCall r])

/-- Embedding of `_capture_thread`: grab, thumbnail, OCR, then the preview,
text and status messages; any raise ends in the error status. -/
def capture_thread (r : Region) (env : CaptureEnv) : List CapEv :=
  match grab_image r env with
  | (none, evs) => evs ++ [CapEv.uiStatus false]
  | (some img, evs) =>
    match env.ocr img with
    | none => evs ++ [CapEv.ocrCall img, CapEv.uiStatus false]
    | some t => evs ++ [CapEv.ocrCall img, CapEv.uiPreview, CapEv.uiText t, CapEv.uiStatus true]

/-! ## Provider catalog (src/app_ctk.py lines 88-95)

`merged_providers` starts from the configured provider list (a dict
comprehension, later duplicates winning), appends the curated builtin
models through `setdefault(...).extend(...)`, replaces each model list by
`sorted(set(models))` and lists providers by sorted key. -/

def sortStr (l : List String) : List String := l.mergeSort

def sortedDedup (l : List String) : List String := l.dedup.mergeSort

def setdefaultExtend (d : List (String × List String)) (k : String) (xs : List String) :
    List (String × List String) :=
  if k ∈ dKeys d then d.map (fun p => if p.1 = k then (p.1, p.2 ++ xs) else p)
  else d ++ [(k, xs)]

def openaiBuiltins : List String := ["gpt-4o", "gpt-4o-mini", "o3-mini", "gpt-4.1-mini"]

def anthropicBuiltins : List String := ["claude-3.5-sonnet", "claude-3-opus", "claude-3-haiku"]

def geminiBuiltins : List String := ["gemini-1.5-pro", "gemini-1.5-flash"]

/-- State of `prov_map` after the dict comprehension of line 89 and the
three `setdefault(...).extend(...)` calls of lines 90-92. -/
def provMapWithDefaults (config : List (String × List String)) :
    List (String × List String) :=
  setdefaultExtend
    (setdefaultExtend
      (setdefaultExtend (dictUpdate [] config) "OpenAI" openaiBuiltins)
      "Anthropic" anthropicBuiltins)
    "Gemini" geminiBuiltins

def merged_providers (config : List (String × List String)) : List (String × List String) :=
  let m := (provMapWithDefaults config).map (fun p => (p.1, sortedDedup p.2))
  (sortStr (dKeys m)).map (fun k => (k, (dGet? m k).getD []))

/-! # Theorems -/
/-! ## Dictionary lemmas -/

theorem dGet?_append {α : Type} (d e : List (String × α)) (k : String) :
    dGet? (d ++ e) k = match dGet? d k with | some v => some v | none => dGet? e k := by
  induction d with
  | nil => simp [dGet?]
  | cons p r ih =>
    by_cases h : p.1 = k
    · simp [dGet?, h]
    · simp [dGet?, h, ih]

theorem dGet?_none_of_not_mem {α : Type} (d : List (String × α)) (k : String)
    (h : k ∉ dKeys d) : dGet? d k = none := by
  induction d with
  | nil => rfl
  | cons p r ih =>
    have h1 : ¬ p.1 = k := fun hh => h (by simp [dKeys, ← hh])
    have h2 : k ∉ dKeys r := fun hm => h (by simp [dKeys] at hm ⊢; exact Or.inr hm)
    simp [dGet?, h1, ih h2]

theorem dGet?_mapEntry_self {α : Type} (d : List (String × α)) (k : String) (f : α → α) :
    dGet? (d.map (fun p => if p.1 = k then (p.1, f p.2) else p)) k = (dGet? d k).map f := by
  induction d with
  | nil => simp [dGet?]
  | cons p r ih =>
    by_cases h : p.1 = k
    · simp [dGet?, h]
    · simp [dGet?, h, ih]

theorem dGet?_mapEntry_ne {α : Type} (d : List (String × α)) (k q : String) (f : α → α)
    (hne : q ≠ k) :
    dGet? (d.map (fun p => if p.1 = k then (p.1, f p.2) else p)) q = dGet? d q := by
  induction d with
  | nil => simp [dGet?]
  | cons p r ih =>
    by_cases h : p.1 = k
    · have hpq : ¬ p.1 = q := fun hh => hne (h.symm.trans hh).symm
      have hkq : ¬ k = q := fun hh => hne hh.symm
      simp [dGet?, h, hpq, hkq, ih]
    · simp [dGet?, h, ih]

theorem dGet?_map_const_self {α : Type} (d : List (String × α)) (k : String) (v : α)
    (h : k ∈ dKeys d) :
    dGet? (d.map (fun p => if p.1 = k then (p.1, v) else p)) k = some v := by
  induction d with
  | nil => simp [dKeys] at h
  | cons p r ih =>
    by_cases hp : p.1 = k
    · simp [dGet?, hp]
    · have h2 : k ∈ dKeys r := by
        simp [dKeys] at h
        rcases h with h | h
        · exact absurd h.symm hp
        · simpa [dKeys] using h
      simp [dGet?, hp, ih h2]

theorem dGet?_dInsert_self {α : Type} (d : List (String × α)) (k : String) (v : α) :
    dGet? (dInsert d k v) k = some v := by
  unfold dInsert
  by_cases h : k ∈ dKeys d
  · rw [if_pos h]
    exact dGet?_map_const_self d k v h
  · rw [if_neg h, dGet?_append, dGet?_none_of_not_mem d k h]
    simp [dGet?]

theorem dGet?_dInsert_ne {α : Type} (d : List (String × α)) (k q : String) (v : α)
    (hne : q ≠ k) : dGet? (dInsert d k v) q = dGet? d q := by
  unfold dInsert
  by_cases h : k ∈ dKeys d
  · rw [if_pos h]
    exact dGet?_mapEntry_ne d k q (fun _ => v) hne
  · rw [if_neg h, dGet?_append]
    cases hd : dGet? d q with
    | some w => rfl
    | none =>
      have hkq : ¬ k = q := fun hh => hne hh.symm
      simp [dGet?, hkq]

theorem dGet?_dictUpdate_not_mem {α : Type} (d m : List (String × α)) (k : String)
    (h : k ∉ dKeys m) : dGet? (dictUpdate d m) k = dGet? d k := by
  induction m generalizing d with
  | nil => rfl
  | cons p r ih =>
    have hne : k ≠ p.1 := fun hh => h (by simp [dKeys, hh])
    have h2 : k ∉ dKeys r := fun hm => h (by simp [dKeys] at hm ⊢; exact Or.inr hm)
    have step : dictUpdate d (p :: r) = dictUpdate (dInsert d p.1 p.2) r := rfl
    rw [step, ih (dInsert d p.1 p.2) h2, dGet?_dInsert_ne d p.1 k p.2 hne]

theorem dGet?_dictUpdate_mem {α : Type} (d m : List (String × α)) (k : String) (v : α)
    (hnd : (dKeys m).Nodup) (hkv : (k, v) ∈ m) :
    dGet? (dictUpdate d m) k = some v := by
  induction m generalizing d with
  | nil => cases hkv
  | cons p r ih =>
    have e : dKeys (p :: r) = p.1 :: dKeys r := rfl
    rw [e] at hnd
    obtain ⟨hp, hr⟩ := List.nodup_cons.mp hnd
    have step : dictUpdate d (p :: r) = dictUpdate (dInsert d p.1 p.2) r := rfl
    rcases List.mem_cons.mp hkv with heq | hmem
    · have hk : k = p.1 := by rw [← heq]
      have hv : v = p.2 := by rw [← heq]
      have hnot : k ∉ dKeys r := hk ▸ hp
      rw [step, dGet?_dictUpdate_not_mem _ _ _ hnot, hk, hv]
      exact dGet?_dInsert_self d p.1 p.2
    · exact step ▸ ih (dInsert d p.1 p.2) hr hmem

theorem dInsert_ne_nil {α : Type} (d : List (String × α)) (k : String) (v : α) :
    dInsert d k v ≠ [] := by
  unfold dInsert
  by_cases h : k ∈ dKeys d
  · rw [if_pos h]
    intro hc
    rw [List.map_eq_nil_iff] at hc
    subst hc
    simp [dKeys] at h
  · rw [if_neg h]
    simp

theorem dictUpdate_ne_nil {α : Type} (d m : List (String × α)) (hd : d ≠ []) :
    dictUpdate d m ≠ [] := by
  induction m generalizing d with
  | nil => exact hd
  | cons p r ih => exact ih (dInsert d p.1 p.2) (dInsert_ne_nil d p.1 p.2)

/-! ## JSON round-trip lemmas -/

theorem jsonUnescapeChars_escapeChar (c : Char) (rest : List Char) :
    jsonUnescapeChars (jsonEscapeChar c ++ rest) = (jsonUnescapeChars rest).map (c :: ·) := by
  unfold jsonEscapeChar
  by_cases h1 : c = '"'
  · cases hj : jsonUnescapeChars rest <;> simp [h1, jsonUnescapeChars, hj]
  · by_cases h2 : c = '\\'
    · cases hj : jsonUnescapeChars rest <;> simp [h1, h2, jsonUnescapeChars, hj]
    · by_cases h3 : c = '\n'
      · cases hj : jsonUnescapeChars rest <;> simp [h1, h2, h3, jsonUnescapeChars, hj]
      · by_cases h4 : c = '\t'
        · cases hj : jsonUnescapeChars rest <;> simp [h1, h2, h3, h4, jsonUnescapeChars, hj]
        · by_cases h5 : c = '\r'
          · cases hj : jsonUnescapeChars rest <;> simp [h1, h2, h3, h4, h5, jsonUnescapeChars, hj]
          · simp only [if_neg h1, if_neg h2, if_neg h3, if_neg h4, if_neg h5,
              List.singleton_append]
            cases hj : jsonUnescapeChars rest <;> simp [jsonUnescapeChars, h2, hj]

theorem jsonUnescapeChars_flatMap (l : List Char) :
    jsonUnescapeChars (l.flatMap jsonEscapeChar) = some l := by
  induction l with
  | nil => rfl
  | cons c r ih => simp [List.flatMap_cons, jsonUnescapeChars_escapeChar, ih]

theorem jsonUnescape_jsonEscape (s : String) : jsonUnescape (jsonEscape s) = some s := by
  cases s with
  | mk data => simp [jsonUnescape, jsonEscape, jsonUnescapeChars_flatMap]

theorem decodeEntry_encode (p : String × String) :
    decodeEntry (jsonEscape p.1, jsonEscape p.2) = some p := by
  simp [decodeEntry, jsonUnescape_jsonEscape]

theorem decodeStored_encode (m : List (String × String)) :
    decodeStored (m.map (fun p => (jsonEscape p.1, jsonEscape p.2))) = some m := by
  induction m with
  | nil => rfl
  | cons p r ih => simp [decodeStored, decodeEntry_encode, ih]

/-- Claim C5: saving a prompt mapping and loading it back returns every
saved entry with its name and body exactly as saved, byte for byte,
including non-ASCII characters; the file layer overrides the compiled-in
configuration entry by entry. -/
theorem prompts_save_load_roundtrip (cfg : Option (List (String × String)))
    (m : List (String × String)) (hm : (dKeys m).Nodup) (k v : String)
    (hkv : (k, v) ∈ m) :
    dGet? (load_prompts cfg (save_prompts m)) k = some v := by
  have hbase :
      load_prompts cfg (save_prompts m) =
        (let base : List (String × String) :=
          match cfg with
          | some c => dictUpdate [] c
          | none => []
        if dictUpdate base m = [] then defaultPrompts else dictUpdate base m) := by
    simp only [load_prompts, save_prompts, decodeStored_encode]
  rw [hbase]
  simp only
  set base := (match cfg with
    | some c => dictUpdate ([] : List (String × String)) c
    | none => ([] : List (String × String))) with hb
  have hne : dictUpdate base m ≠ [] := by
    cases m with
    | nil => cases hkv
    | cons p r =>
      have step : dictUpdate base (p :: r) = dictUpdate (dInsert base p.1 p.2) r := rfl
      rw [step]
      exact dictUpdate_ne_nil _ _ (dInsert_ne_nil base p.1 p.2)
  rw [if_neg hne]
  exact dGet?_dictUpdate_mem base m k v hm hkv

/-- Claim C5 witness: a concrete non-ASCII mapping (with characters that the
JSON layer must escape) survives the save/load round-trip unchanged. -/
theorem prompts_save_load_roundtrip_witness :
    (dKeys [("Général", "Tu es un expert… \n\"précision\" \\ primordiale"), ("B", "b")]).Nodup
    ∧ ("Général", "Tu es un expert… \n\"précision\" \\ primordiale")
        ∈ [("Général", "Tu es un expert… \n\"précision\" \\ primordiale"), ("B", "b")]
    ∧ dGet?
        (load_prompts (some [("Général", "old")])
          (save_prompts
            [("Général", "Tu es un expert… \n\"précision\" \\ primordiale"), ("B", "b")]))
        "Général"
      = some "Tu es un expert… \n\"précision\" \\ primordiale" :=
  ⟨by decide, by decide,
    prompts_save_load_roundtrip (some [("Général", "old")])
      [("Général", "Tu es un expert… \n\"précision\" \\ primordiale"), ("B", "b")]
      (by decide) "Général" "Tu es un expert… \n\"précision\" \\ primordiale" (by decide)⟩

/-- Claim C10: `load_prompts` never returns an empty mapping: when the
configuration contributes nothing usable and the on-disk file is absent,
malformed, not an object, or contributes no entries, it falls back to the
built-in hardcoded set of four prompt templates. -/
theorem load_prompts_nonempty_fallback :
    (∀ cfg file, load_prompts cfg file ≠ [])
    ∧ load_prompts none PromptsFile.absent = defaultPrompts
    ∧ load_prompts (some []) PromptsFile.malformed = defaultPrompts
    ∧ load_prompts none (PromptsFile.stored []) = defaultPrompts
    ∧ defaultPrompts.length = 4 := by
  refine ⟨?_, by decide, by decide, by decide, by decide⟩
  intro cfg file
  unfold load_prompts
  simp only
  split
  · decide
  · next h => exact h

/-! ## Fresh-name lemmas -/

theorem natDecGo_congr (n : Nat) : ∀ f1 f2 : Nat, n < f1 → n < f2 →
    natDecGo f1 n = natDecGo f2 n := by
  induction n using Nat.strong_induction_on with
  | _ n ih =>
    intro f1 f2 h1 h2
    match f1, h1 with
    | g1 + 1, h1 =>
      match f2, h2 with
      | g2 + 1, h2 =>
        have e1 : natDecGo (g1 + 1) n =
            if n < 10 then [Nat.digitChar n]
            else natDecGo g1 (n / 10) ++ [Nat.digitChar (n % 10)] := rfl
        have e2 : natDecGo (g2 + 1) n =
            if n < 10 then [Nat.digitChar n]
            else natDecGo g2 (n / 10) ++ [Nat.digitChar (n % 10)] := rfl
        rw [e1, e2]
        by_cases hn : n < 10
        · simp [hn]
        · have hdiv : n / 10 < n := Nat.div_lt_self (by omega) (by omega)
          have hb1 : n / 10 < g1 := by omega
          have hb2 : n / 10 < g2 := by omega
          simp only [if_neg hn]
          rw [ih (n / 10) hdiv g1 g2 hb1 hb2]

theorem natDecStr_pow_length (e : Nat) : (natDecStr (10 ^ e)).length = e + 1 := by
  induction e with
  | zero => decide
  | succ e ih =>
    have hge : 10 ≤ 10 ^ (e + 1) := by
      have h := Nat.pow_le_pow_right (show 0 < 10 by omega) (show 1 ≤ e + 1 by omega)
      simpa using h
    have hdiv : 10 ^ (e + 1) / 10 = 10 ^ e := by
      rw [pow_succ]
      exact Nat.mul_div_cancel _ (by omega)
    have hlt : 10 ^ e < 10 ^ (e + 1) := Nat.pow_lt_pow_right (by omega) (by omega)
    have hnot : ¬ 10 ^ (e + 1) < 10 := by omega
    have estep : natDecGo (10 ^ (e + 1) + 1) (10 ^ (e + 1)) =
        if 10 ^ (e + 1) < 10 then [Nat.digitChar (10 ^ (e + 1))]
        else natDecGo (10 ^ (e + 1)) (10 ^ (e + 1) / 10) ++
          [Nat.digitChar (10 ^ (e + 1) % 10)] := rfl
    have step : natDecGo (10 ^ (e + 1) + 1) (10 ^ (e + 1)) =
        natDecGo (10 ^ (e + 1)) (10 ^ e) ++ [Nat.digitChar (10 ^ (e + 1) % 10)] := by
      rw [estep, if_neg hnot, hdiv]
    have hcongr : natDecGo (10 ^ (e + 1)) (10 ^ e) = natDecGo (10 ^ e + 1) (10 ^ e) :=
      natDecGo_congr (10 ^ e) _ _ hlt (by omega)
    have hlen : (natDecStr (10 ^ e)).data.length = e + 1 := ih
    have : natDecStr (10 ^ (e + 1)) =
        ⟨(natDecStr (10 ^ e)).data ++ [Nat.digitChar (10 ^ (e + 1) % 10)]⟩ := by
      simp [natDecStr, step, hcongr]
    rw [this]
    show ((natDecStr (10 ^ e)).data ++ [Nat.digitChar (10 ^ (e + 1) % 10)]).length = e + 1 + 1
    simp [hlen]

theorem maxKeyLen_le (ks : List String) (s : String) (h : s ∈ ks) :
    s.length ≤ maxKeyLen ks := by
  induction ks with
  | nil => cases h
  | cons a t ih =>
    have e : maxKeyLen (a :: t) = max a.length (maxKeyLen t) := rfl
    rcases List.mem_cons.mp h with rfl | hm
    · rw [e]; exact le_max_left _ _
    · rw [e]; exact le_trans (ih hm) (le_max_right _ _)

theorem candidate_maxLen_free (ks : List String) :
    candidate (10 ^ (maxKeyLen ks + 1) - 1) ∉ ks := by
  set M := maxKeyLen ks with hM
  have hge : 10 ≤ 10 ^ (M + 1) := by
    have h := Nat.pow_le_pow_right (show 0 < 10 by omega) (show 1 ≤ M + 1 by omega)
    simpa using h
  have hk0 : ¬ (10 ^ (M + 1) - 1 = 0) := by omega
  have hsucc : 10 ^ (M + 1) - 1 + 1 = 10 ^ (M + 1) := by omega
  intro hmem
  have hlen := maxKeyLen_le ks _ hmem
  have hc : candidate (10 ^ (M + 1) - 1)
      = "New Prompt " ++ natDecStr (10 ^ (M + 1) - 1 + 1) := by
    unfold candidate
    rw [if_neg hk0]
  have h11 : ("New Prompt " : String).length = 11 := by decide
  have hcand : (candidate (10 ^ (M + 1) - 1)).length = 11 + (M + 2) := by
    rw [hc, hsucc, String.length_append, natDecStr_pow_length (M + 1), h11]
  rw [hcand] at hlen
  omega

theorem newNameFrom_free (ks : List String) :
    ∀ fuel i, (∃ j, j < fuel ∧ candidate (i + j) ∉ ks) → newNameFrom ks fuel i ∉ ks := by
  intro fuel
  induction fuel with
  | zero =>
    rintro i ⟨j, hj, _⟩
    exact absurd hj (Nat.not_lt_zero j)
  | succ f ih =>
    rintro i ⟨j, hj, hfree⟩
    by_cases hc : candidate i ∈ ks
    · have hj0 : j ≠ 0 := by
        intro h0
        subst h0
        exact hfree (by simpa using hc)
      obtain ⟨j2, rfl⟩ : ∃ j2, j = j2 + 1 := ⟨j - 1, by omega⟩
      have hstep : newNameFrom ks (f + 1) i = newNameFrom ks f (i + 1) := by
        simp [newNameFrom, hc]
      rw [hstep]
      refine ih (i + 1) ⟨j2, by omega, ?_⟩
      have harith : i + 1 + j2 = i + (j2 + 1) := by omega
      rw [harith]
      exact hfree
    · have hstep : newNameFrom ks (f + 1) i = candidate i := by
        simp [newNameFrom, hc]
      rw [hstep]
      exact hc

theorem promptNewName_not_mem (ks : List String) : promptNewName ks ∉ ks := by
  unfold promptNewName
  apply newNameFrom_free
  refine ⟨10 ^ (maxKeyLen ks + 1) - 1, ?_, ?_⟩
  · have hge : 10 ≤ 10 ^ (maxKeyLen ks + 1) := by
      have h := Nat.pow_le_pow_right (show 0 < 10 by omega)
        (show 1 ≤ maxKeyLen ks + 1 by omega)
      simpa using h
    omega
  · simpa using candidate_maxLen_free ks

/-- Claim C7: creating a new prompt from the base name "New Prompt" always
produces a key absent from the store (the existing entries are kept and the
new entry is appended, never overwriting), and two successive new-prompt
calls on the same store yield two distinct keys. -/
theorem prompt_new_fresh_keys (s : PromptApp) :
    promptNewName (dKeys s.prompts) ∉ dKeys s.prompts
    ∧ (prompt_new s).prompts
        = s.prompts ++ [(promptNewName (dKeys s.prompts), "Write your prompt here…")]
    ∧ promptNewName (dKeys (prompt_new s).prompts) ≠ promptNewName (dKeys s.prompts) := by
  have h1 := promptNewName_not_mem (dKeys s.prompts)
  have h2 : (prompt_new s).prompts
      = s.prompts ++ [(promptNewName (dKeys s.prompts), "Write your prompt here…")] := by
    simp [prompt_new, dInsert, h1]
  refine ⟨h1, h2, ?_⟩
  have hkeys : dKeys (prompt_new s).prompts
      = dKeys s.prompts ++ [promptNewName (dKeys s.prompts)] := by
    rw [show dKeys (prompt_new s).prompts = (prompt_new s).prompts.map Prod.fst from rfl, h2]
    simp [dKeys]
  have h3 := promptNewName_not_mem (dKeys (prompt_new s).prompts)
  intro heq
  apply h3
  rw [heq, hkeys]
  exact List.mem_append_right _ (by simp)

/-- Claim C6 counterexample: creating a new prompt mutates the in-memory
store but writes nothing to disk, so right after `_prompt_new` returns the
persisted file no longer reflects the in-memory mapping. -/
theorem prompt_new_not_persisted_cex :
    prompt_new { prompts := [], file := save_prompts [] }
      = { prompts := [("New Prompt", "Write your prompt here…")], file := save_prompts [] }
    ∧ save_prompts [("New Prompt", "Write your prompt here…")] ≠ save_prompts [] := by
  decide

/-- Claim C6 amended: saving an edited prompt (with a nonblank name) and
deleting an existing prompt each persist the full current mapping at once;
creating a new prompt, however, mutates the in-memory store and leaves the
persisted file untouched. -/
theorem prompt_mutation_persistence (s : PromptApp) (n t k : String)
    (hn : pyStrip n ≠ "") (hk : k ∈ dKeys s.prompts) :
    (prompt_save s n t).file = save_prompts (prompt_save s n t).prompts
    ∧ (prompt_delete s k).file = save_prompts (prompt_delete s k).prompts
    ∧ (prompt_new s).file = s.file
    ∧ (prompt_new s).prompts ≠ s.prompts := by
  refine ⟨?_, ?_, rfl, ?_⟩
  · simp [prompt_save, hn]
  · simp [prompt_delete, hk]
  · have h1 := promptNewName_not_mem (dKeys s.prompts)
    have h2 : (prompt_new s).prompts
        = s.prompts ++ [(promptNewName (dKeys s.prompts), "Write your prompt here…")] := by
      simp [prompt_new, dInsert, h1]
    rw [h2]
    intro heq
    have hlen := congrArg List.length heq
    simp at hlen

/-- Claim C6 amended, witness at a concrete one-entry store. -/
theorem prompt_mutation_persistence_witness :
    pyStrip "B" ≠ "" ∧ "A" ∈ dKeys [("A", "a")]
    ∧ ((prompt_save ⟨[("A", "a")], save_prompts [("A", "a")]⟩ "B" " b ").file
        = save_prompts (prompt_save ⟨[("A", "a")], save_prompts [("A", "a")]⟩ "B" " b ").prompts
      ∧ (prompt_delete ⟨[("A", "a")], save_prompts [("A", "a")]⟩ "A").file
        = save_prompts (prompt_delete ⟨[("A", "a")], save_prompts [("A", "a")]⟩ "A").prompts
      ∧ (prompt_new ⟨[("A", "a")], save_prompts [("A", "a")]⟩).file
        = (⟨[("A", "a")], save_prompts [("A", "a")]⟩ : PromptApp).file
      ∧ (prompt_new ⟨[("A", "a")], save_prompts [("A", "a")]⟩).prompts
        ≠ (⟨[("A", "a")], save_prompts [("A", "a")]⟩ : PromptApp).prompts) :=
  ⟨by decide, by decide,
    prompt_mutation_persistence ⟨[("A", "a")], save_prompts [("A", "a")]⟩ "B" " b " "A"
      (by decide) (by decide)⟩

/-! ## Prompt rendering lemmas -/

theorem pyFormatGo_no_braces (td : List Char) (l : List Char)
    (h : ∀ c ∈ l, c ≠ '{' ∧ c ≠ '}') : pyFormatGo td false [] l = some l := by
  induction l with
  | nil => rfl
  | cons c r ih =>
    have hc := h c (List.mem_cons_self c r)
    have hr : ∀ x ∈ r, x ≠ '{' ∧ x ≠ '}' := fun x hx => h x (List.mem_cons_of_mem c hx)
    simp [pyFormatGo, hc.1, hc.2, ih hr]

theorem renderPrompt_no_braces (tmpl text : String)
    (h : ∀ c ∈ tmpl.data, c ≠ '{' ∧ c ≠ '}') : renderPrompt tmpl text = some tmpl := by
  cases tmpl with
  | mk d =>
    simp only [renderPrompt]
    rw [pyFormatGo_no_braces text.data d h]
    rfl

/-- Claim C3 counterexample: a template containing no substitution
placeholder does not fail; `complete` forwards it to the vendor unchanged
and returns the vendor's answer. -/
theorem complete_no_placeholder_cex :
    complete "Answer with the correct choice only." "Q1" (VendorResp.gemini (some "B"))
      = { result := Except.ok "B",
          vendorCalls := ["Answer with the correct choice only."] } := by decide

/-- Claim C3 amended: a template with malformed substitution syntax (a lone
opening or closing brace) or with an unknown field name makes `complete`
fail before any vendor call, but a template containing no brace at all is
not rejected: it is forwarded to the vendor unchanged. -/
theorem complete_template_handling (tmpl text : String) (resp : VendorResp)
    (h : ∀ c ∈ tmpl.data, c ≠ '{' ∧ c ≠ '}') :
    (complete tmpl text resp).vendorCalls = [tmpl]
    ∧ (complete "\x7b" text resp).result = Except.error CompleteErr.formatError
    ∧ (complete "\x7b" text resp).vendorCalls = []
    ∧ (complete "\x7d" text resp).result = Except.error CompleteErr.formatError
    ∧ (complete "\x7d" text resp).vendorCalls = []
    ∧ (complete "{answer}" text resp).result = Except.error CompleteErr.formatError
    ∧ (complete "{answer}" text resp).vendorCalls = [] := by
  refine ⟨?_, rfl, rfl, rfl, rfl, rfl, rfl⟩
  unfold complete
  rw [renderPrompt_no_braces tmpl text h]

/-- Claim C3 amended, witness at a brace-free template. -/
theorem complete_template_handling_witness :
    (∀ c ∈ ("Pick the right option." : String).data, c ≠ '{' ∧ c ≠ '}')
    ∧ ((complete "Pick the right option." "T" (VendorResp.gemini (some "B"))).vendorCalls
        = ["Pick the right option."]
      ∧ (complete "\x7b" "T" (VendorResp.gemini (some "B"))).result
          = Except.error CompleteErr.formatError
      ∧ (complete "\x7b" "T" (VendorResp.gemini (some "B"))).vendorCalls = []
      ∧ (complete "\x7d" "T" (VendorResp.gemini (some "B"))).result
          = Except.error CompleteErr.formatError
      ∧ (complete "\x7d" "T" (VendorResp.gemini (some "B"))).vendorCalls = []
      ∧ (complete "{answer}" "T" (VendorResp.gemini (some "B"))).result
          = Except.error CompleteErr.formatError
      ∧ (complete "{answer}" "T" (VendorResp.gemini (some "B"))).vendorCalls = []) :=
  ⟨by decide,
    complete_template_handling "Pick the right option." "T" (VendorResp.gemini (some "B"))
      (by decide)⟩

/-- Claim C4 counterexample: on the OpenAI branch an empty list of choices
does not yield the empty string; indexing `resp.choices[0]` raises
`IndexError` after the vendor call. -/
theorem complete_empty_choices_cex :
    complete "{text}" "q" (VendorResp.openai ⟨[]⟩)
      = { result := Except.error CompleteErr.indexError, vendorCalls := ["q"] } := by decide

/-- Claim C4 amended: with a well-formed template, an empty or missing
answer field yields the empty string for a first OpenAI choice without
content and for Anthropic and Gemini responses (including empty block
lists), but an OpenAI response with an empty `choices` list crashes with
`IndexError` instead of returning an empty string. -/
theorem complete_empty_vendor_fields (tmpl text p : String)
    (h : renderPrompt tmpl text = some p) :
    (complete tmpl text (VendorResp.openai ⟨[⟨⟨none⟩⟩]⟩)).result = Except.ok ""
    ∧ (complete tmpl text (VendorResp.openai ⟨[⟨⟨some ""⟩⟩]⟩)).result = Except.ok ""
    ∧ (complete tmpl text (VendorResp.anthropic none)).result = Except.ok ""
    ∧ (complete tmpl text (VendorResp.anthropic (some []))).result = Except.ok ""
    ∧ (complete tmpl text (VendorResp.gemini none)).result = Except.ok ""
    ∧ (complete tmpl text (VendorResp.gemini (some ""))).result = Except.ok ""
    ∧ (complete tmpl text (VendorResp.openai ⟨[]⟩)).result
        = Except.error CompleteErr.indexError := by
  unfold complete
  rw [h]
  exact ⟨rfl, rfl, rfl, rfl, rfl, rfl, rfl⟩

/-- Claim C4 amended, witness at the canonical placeholder template. -/
theorem complete_empty_vendor_fields_witness :
    renderPrompt "{text}" "q" = some "q"
    ∧ ((complete "{text}" "q" (VendorResp.openai ⟨[⟨⟨none⟩⟩]⟩)).result = Except.ok ""
      ∧ (complete "{text}" "q" (VendorResp.openai ⟨[⟨⟨some ""⟩⟩]⟩)).result = Except.ok ""
      ∧ (complete "{text}" "q" (VendorResp.anthropic none)).result = Except.ok ""
      ∧ (complete "{text}" "q" (VendorResp.anthropic (some []))).result = Except.ok ""
      ∧ (complete "{text}" "q" (VendorResp.gemini none)).result = Except.ok ""
      ∧ (complete "{text}" "q" (VendorResp.gemini (some ""))).result = Except.ok ""
      ∧ (complete "{text}" "q" (VendorResp.openai ⟨[]⟩)).result
          = Except.error CompleteErr.indexError) :=
  ⟨by decide, complete_empty_vendor_fields "{text}" "q" "q" (by decide)⟩

/-! ## Dispatch lemmas -/

/-- Claim C1 counterexample: with the disk-log sink enabled and failing and
the webhook sink enabled and healthy, the disk exception escapes
`_post_answer` and the webhook POST is never attempted. -/
theorem post_answer_disk_failure_cex :
    post_answer ⟨false, true, true, "u", false, "", ""⟩ ⟨true, false, some 200, none⟩
      = ([Ev.uiAnswer, Ev.diskWrite false], some DispatchErr.diskWriteFailed)
    ∧ Ev.webhookCall ∉ [Ev.uiAnswer, Ev.diskWrite false] := by decide

/-- Claim C1 amended: as long as the disk-log sink does not fail, no sink
failure escapes `_post_answer` and every enabled sink is attempted with its
own outcome, independent of the clipboard, webhook or messaging failures;
in particular a successful disk write and a failed webhook delivery appear
in the same call.  A disk-log failure, however, escapes the dispatch and
prevents the webhook and messaging attempts. -/
theorem post_answer_sink_isolation (s : OutputSettings) (w : SinkWorld)
    (hdisk : s.do_auto_save = true → w.diskOk = true) :
    (post_answer s w).2 = none
    ∧ (s.do_copy_clipboard = true → Ev.clipboardWrite w.clipboardOk ∈ (post_answer s w).1)
    ∧ (s.do_auto_save = true → Ev.diskWrite true ∈ (post_answer s w).1)
    ∧ (s.do_send_discord = true → pyStrip s.webhook_url ≠ "" →
        Ev.webhookCall ∈ (post_answer s w).1
        ∧ Ev.webhookOutcome (webhookDelivered w) ∈ (post_answer s w).1)
    ∧ (s.do_send_telegram = true → pyStrip s.telegram_token ≠ "" →
        pyStrip s.telegram_chat ≠ "" →
        Ev.telegramCall ∈ (post_answer s w).1
        ∧ Ev.telegramOutcome (telegramDelivered w) ∈ (post_answer s w).1) := by
  obtain ⟨c, a, d, url, t, tok, ch⟩ := s
  obtain ⟨cb, dk, wh, tg⟩ := w
  simp only at hdisk
  have hlog : (if a = true then append_log dk else ([], none))
      = ((if a = true then [Ev.diskWrite true] else []), none) := by
    cases a with
    | false => simp
    | true => simp [append_log, hdisk rfl]
  refine ⟨?_, ?_, ?_, ?_, ?_⟩ <;>
    simp only [post_answer, hlog] <;>
    cases c <;> cases a <;>
    rcases wh with _ | st <;> rcases tg with _ | st2 <;>
    simp_all [append_log, send_telegram_message, webhookDelivered, telegramDelivered,
      List.mem_append] <;>
    intros <;>
    (try split_ifs) <;>
    (try simp_all [List.mem_append, Nat.not_lt, Nat.not_le])

/-- Claim C1 amended, witness: disk enabled and healthy while the
clipboard, webhook (status 500) and messaging transport (exception) all
fail; the call still reports every outcome and no exception escapes. -/
theorem post_answer_sink_isolation_witness :
    ((⟨true, true, true, "u", true, "tk", "ch"⟩ : OutputSettings).do_auto_save = true →
      (⟨false, true, some 500, none⟩ : SinkWorld).diskOk = true)
    ∧ ((post_answer ⟨true, true, true, "u", true, "tk", "ch"⟩
          ⟨false, true, some 500, none⟩).2 = none
      ∧ ((⟨true, true, true, "u", true, "tk", "ch"⟩ : OutputSettings).do_copy_clipboard = true →
          Ev.clipboardWrite (⟨false, true, some 500, none⟩ : SinkWorld).clipboardOk
            ∈ (post_answer ⟨true, true, true, "u", true, "tk", "ch"⟩
                ⟨false, true, some 500, none⟩).1)
      ∧ ((⟨true, true, true, "u", true, "tk", "ch"⟩ : OutputSettings).do_auto_save = true →
          Ev.diskWrite true
            ∈ (post_answer ⟨true, true, true, "u", true, "tk", "ch"⟩
                ⟨false, true, some 500, none⟩).1)
      ∧ ((⟨true, true, true, "u", true, "tk", "ch"⟩ : OutputSettings).do_send_discord = true →
          pyStrip (⟨true, true, true, "u", true, "tk", "ch"⟩ : OutputSettings).webhook_url ≠ "" →
          Ev.webhookCall
            ∈ (post_answer ⟨true, true, true, "u", true, "tk", "ch"⟩
                ⟨false, true, some 500, none⟩).1
          ∧ Ev.webhookOutcome (webhookDelivered ⟨false, true, some 500, none⟩)
            ∈ (post_answer ⟨true, true, true, "u", true, "tk", "ch"⟩
                ⟨false, true, some 500, none⟩).1)
      ∧ ((⟨true, true, true, "u", true, "tk", "ch"⟩ : OutputSettings).do_send_telegram = true →
          pyStrip (⟨true, true, true, "u", true, "tk", "ch"⟩ : OutputSettings).telegram_token ≠ "" →
          pyStrip (⟨true, true, true, "u", true, "tk", "ch"⟩ : OutputSettings).telegram_chat ≠ "" →
          Ev.telegramCall
            ∈ (post_answer ⟨true, true, true, "u", true, "tk", "ch"⟩
                ⟨false, true, some 500, none⟩).1
          ∧ Ev.telegramOutcome (telegramDelivered ⟨false, true, some 500, none⟩)
            ∈ (post_answer ⟨true, true, true, "u", true, "tk", "ch"⟩
                ⟨false, true, some 500, none⟩).1)) :=
  ⟨by decide,
    post_answer_sink_isolation ⟨true, true, true, "u", true, "tk", "ch"⟩
      ⟨false, true, some 500, none⟩ (by decide)⟩

/-- Claim C2 counterexample: with the messaging sink enabled but a blank
bot token, `_post_answer` silently skips the sink: the dispatch call
records no MissingCredentials outcome at all (and performs no transport
call), rather than failing the sink. -/
theorem telegram_blank_skipped_cex :
    post_answer ⟨false, false, false, "", true, "", "c"⟩ ⟨true, true, none, some 200⟩
      = ([Ev.uiAnswer], none) := by decide

/-- Claim C2 amended: when the messaging sink is enabled with a blank token
or chat id, the dispatch makes zero transport calls but also reports no
outcome for the sink (it is skipped silently by the guard at line 654);
the underlying `_send_telegram_message`, when invoked directly, does fail
fast with MissingCredentials before any transport call. -/
theorem telegram_missing_credentials (s : OutputSettings) (w : SinkWorld)
    (hblank : pyStrip s.telegram_token = "" ∨ pyStrip s.telegram_chat = "")
    (token chat : String) (transport : Option Nat)
    (hblank2 : pyStrip token = "" ∨ pyStrip chat = "") :
    Ev.telegramCall ∉ (post_answer s w).1
    ∧ (∀ b, Ev.telegramOutcome b ∉ (post_answer s w).1)
    ∧ send_telegram_message token chat transport = ([], some TgErr.missingCredentials) := by
  obtain ⟨c, a, d, url, t, tok, ch⟩ := s
  obtain ⟨cb, dk, wh, tg⟩ := w
  simp only at hblank
  refine ⟨?_, ?_, ?_⟩
  · simp only [post_answer]
    rcases hblank with hb | hb <;>
      cases c <;> cases a <;> cases dk <;>
      rcases wh with _ | st <;>
      simp_all [append_log, send_telegram_message, List.mem_append] <;>
      (try split_ifs) <;>
      (try simp_all [List.mem_append])
  · intro b
    simp only [post_answer]
    rcases hblank with hb | hb <;>
      cases c <;> cases a <;> cases dk <;>
      rcases wh with _ | st <;>
      simp_all [append_log, send_telegram_message, List.mem_append] <;>
      (try split_ifs) <;>
      (try simp_all [List.mem_append])
  · unfold send_telegram_message
    rw [if_pos hblank2]

/-- Claim C2 amended, witness: blank token with the sink enabled. -/
theorem telegram_missing_credentials_witness :
    (pyStrip (⟨false, true, true, "u", true, "", "c"⟩ : OutputSettings).telegram_token = ""
      ∨ pyStrip (⟨false, true, true, "u", true, "", "c"⟩ : OutputSettings).telegram_chat = "")
    ∧ (pyStrip "" = "" ∨ pyStrip "c" = "")
    ∧ (Ev.telegramCall
        ∉ (post_answer ⟨false, true, true, "u", true, "", "c"⟩ ⟨true, true, some 200, some 200⟩).1
      ∧ (∀ b, Ev.telegramOutcome b
          ∉ (post_answer ⟨false, true, true, "u", true, "", "c"⟩ ⟨true, true, some 200, some 200⟩).1)
      ∧ send_telegram_message "" "c" (some 200) = ([], some TgErr.missingCredentials)) :=
  ⟨by decide, by decide,
    telegram_missing_credentials ⟨false, true, true, "u", true, "", "c"⟩
      ⟨true, true, some 200, some 200⟩ (by decide) "" "c" (some 200) (by decide)⟩

/-! ## Capture lemmas -/

/-- Claim C9 counterexample: a region of width 0 is not rejected by the
pipeline: pixel acquisition is attempted with exactly that region, and when
the capture collaborator returns pixels the run even completes
successfully instead of failing with a capture error. -/
theorem capture_nonpositive_cex :
    capture_thread ⟨0, 0, 0, 50⟩ ⟨fun _ => some 7, fun _ => some "txt"⟩
      = [CapEv.grabCall ⟨0, 0, 0, 50⟩, CapEv.ocrCall 7, CapEv.uiPreview,
         CapEv.uiText "txt", CapEv.uiStatus true] := by decide

/-- Claim C9 amended: the pipeline performs no dimension validation: every
region, non-positive dimensions included, is forwarded verbatim to pixel
acquisition as the first action of the run; the run ends in a capture
error only when the collaborator itself raises. -/
theorem capture_no_dimension_check (r : Region) (env : CaptureEnv)
    (hfail : env.screen r = none) :
    (∀ r2 : Region, ∀ env2 : CaptureEnv,
      (capture_thread r2 env2).head? = some (CapEv.grabCall r2))
    ∧ capture_thread r env = [CapEv.grabCall r, CapEv.uiStatus false] := by
  constructor
  · intro r2 env2
    unfold capture_thread grab_image
    cases hs : env2.screen r2 with
    | none => rfl
    | some img =>
      cases ho : env2.ocr img with
      | none => simp [ho]
      | some t => simp [ho]
  · unfold capture_thread grab_image
    rw [hfail]
    rfl

/-- Claim C9 amended, witness at a width-negative region and a raising
capture collaborator. -/
theorem capture_no_dimension_check_witness :
    (CaptureEnv.mk (fun _ => none) (fun _ => none)).screen ⟨0, 0, -3, 50⟩ = none
    ∧ ((∀ r2 : Region, ∀ env2 : CaptureEnv,
        (capture_thread r2 env2).head? = some (CapEv.grabCall r2))
      ∧ capture_thread ⟨0, 0, -3, 50⟩ (CaptureEnv.mk (fun _ => none) (fun _ => none))
          = [CapEv.grabCall ⟨0, 0, -3, 50⟩, CapEv.uiStatus false]) :=
  ⟨rfl, capture_no_dimension_check ⟨0, 0, -3, 50⟩
    (CaptureEnv.mk (fun _ => none) (fun _ => none)) rfl⟩

/-! ## Sorting lemmas for the provider catalog -/

theorem mem_sortStr (a : String) (l : List String) : a ∈ sortStr l ↔ a ∈ l := by
  simp [sortStr]

theorem sorted_le_sortStr (l : List String) : List.Sorted (· ≤ ·) (sortStr l) :=
  List.sorted_mergeSort' l

theorem nodup_sortStr (l : List String) (h : l.Nodup) : (sortStr l).Nodup :=
  (List.mergeSort_perm l _).nodup_iff.mpr h

theorem sorted_lt_sortStr (l : List String) (h : l.Nodup) :
    List.Sorted (· < ·) (sortStr l) :=
  (sorted_le_sortStr l).lt_of_le (nodup_sortStr l h)

theorem sortStr_eq_self (l : List String) (h : List.Sorted (· ≤ ·) l) : sortStr l = l :=
  List.mergeSort_eq_self h

theorem mem_sortedDedup (a : String) (l : List String) : a ∈ sortedDedup l ↔ a ∈ l := by
  simp [sortedDedup]

theorem sorted_lt_sortedDedup (l : List String) : List.Sorted (· < ·) (sortedDedup l) :=
  sorted_lt_sortStr l.dedup (List.nodup_dedup l)

theorem strictSorted_eq_of_mem_iff (l1 l2 : List String)
    (h1 : List.Sorted (· < ·) l1) (h2 : List.Sorted (· < ·) l2)
    (hm : ∀ a, a ∈ l1 ↔ a ∈ l2) : l1 = l2 := by
  have hn1 : l1.Nodup := h1.nodup
  have hn2 : l2.Nodup := h2.nodup
  have hperm := (List.perm_ext_iff_of_nodup hn1 hn2).mpr hm
  exact List.eq_of_perm_of_sorted hperm h1.le_of_lt h2.le_of_lt

theorem sortedDedup_of_strictSorted (l : List String) (h : List.Sorted (· < ·) l) :
    sortedDedup l = l :=
  strictSorted_eq_of_mem_iff _ _ (sorted_lt_sortedDedup l) h (fun a => mem_sortedDedup a l)

theorem sortedDedup_append_subset (l xs : List String) (h : ∀ a ∈ xs, a ∈ l) :
    sortedDedup (l ++ xs) = sortedDedup l := by
  refine strictSorted_eq_of_mem_iff _ _ (sorted_lt_sortedDedup _) (sorted_lt_sortedDedup _) ?_
  intro a
  rw [mem_sortedDedup, mem_sortedDedup, List.mem_append]
  exact ⟨fun hh => hh.elim id (h a), Or.inl⟩

/-! ## Key-structure lemmas for the provider catalog -/

theorem dKeys_append {α : Type} (d e : List (String × α)) :
    dKeys (d ++ e) = dKeys d ++ dKeys e := by
  simp [dKeys]

theorem dKeys_map_entry {α : Type} (d : List (String × α)) (g : String × α → String × α)
    (hg : ∀ p, (g p).1 = p.1) : dKeys (d.map g) = dKeys d := by
  simp only [dKeys, List.map_map]
  exact List.map_congr_left (fun p _ => hg p)

theorem dKeys_setdefaultExtend (d : List (String × List String)) (k : String)
    (xs : List String) :
    dKeys (setdefaultExtend d k xs)
      = if k ∈ dKeys d then dKeys d else dKeys d ++ [k] := by
  unfold setdefaultExtend
  split_ifs with h
  · apply dKeys_map_entry
    intro p
    by_cases hp : p.1 = k <;> simp [hp]
  · simp [dKeys]

theorem mem_dKeys_setdefaultExtend (d : List (String × List String)) (k q : String)
    (xs : List String) (h : q ∈ dKeys d) : q ∈ dKeys (setdefaultExtend d k xs) := by
  rw [dKeys_setdefaultExtend]
  split_ifs
  · exact h
  · exact List.mem_append_left _ h

theorem self_mem_dKeys_setdefaultExtend (d : List (String × List String)) (k : String)
    (xs : List String) : k ∈ dKeys (setdefaultExtend d k xs) := by
  rw [dKeys_setdefaultExtend]
  split_ifs with h
  · exact h
  · exact List.mem_append_right _ (by simp)

theorem nodup_dKeys_setdefaultExtend (d : List (String × List String)) (k : String)
    (xs : List String) (h : (dKeys d).Nodup) :
    (dKeys (setdefaultExtend d k xs)).Nodup := by
  rw [dKeys_setdefaultExtend]
  split_ifs with hm
  · exact h
  · simp [List.nodup_append, h, hm]

theorem dKeys_dInsert {α : Type} (d : List (String × α)) (k : String) (v : α) :
    dKeys (dInsert d k v) = if k ∈ dKeys d then dKeys d else dKeys d ++ [k] := by
  unfold dInsert
  split_ifs with h
  · apply dKeys_map_entry
    intro p
    by_cases hp : p.1 = k <;> simp [hp]
  · simp [dKeys]

theorem nodup_dKeys_dictUpdate {α : Type} (d m : List (String × α))
    (h : (dKeys d).Nodup) : (dKeys (dictUpdate d m)).Nodup := by
  induction m generalizing d with
  | nil => exact h
  | cons p r ih =>
    have step : dictUpdate d (p :: r) = dictUpdate (dInsert d p.1 p.2) r := rfl
    rw [step]
    apply ih
    rw [dKeys_dInsert]
    split_ifs with hm
    · exact h
    · simp [List.nodup_append, h, hm]

theorem dGet?_isSome_of_mem {α : Type} (d : List (String × α)) (k : String)
    (h : k ∈ dKeys d) : (dGet? d k).isSome := by
  induction d with
  | nil => simp [dKeys] at h
  | cons p r ih =>
    by_cases hp : p.1 = k
    · simp [dGet?, hp]
    · have h2 : k ∈ dKeys r := by
        simp [dKeys] at h
        rcases h with h | h
        · exact absurd h.symm hp
        · simpa [dKeys] using h
      simpa [dGet?, hp] using ih h2

theorem dGet?_map_val {α : Type} (d : List (String × α)) (f : α → α) (k : String) :
    dGet? (d.map (fun p => (p.1, f p.2))) k = (dGet? d k).map f := by
  induction d with
  | nil => simp [dGet?]
  | cons p r ih =>
    by_cases hp : p.1 = k
    · simp [dGet?, hp]
    · simp [dGet?, hp, ih]

theorem dGet?_setdefaultExtend_self (d : List (String × List String)) (k : String)
    (xs : List String) :
    dGet? (setdefaultExtend d k xs) k = some ((dGet? d k).getD [] ++ xs) := by
  unfold setdefaultExtend
  by_cases h : k ∈ dKeys d
  · rw [if_pos h]
    have hmap := dGet?_mapEntry_self d k (· ++ xs)
    rw [hmap]
    obtain ⟨v, hv⟩ := Option.isSome_iff_exists.mp (dGet?_isSome_of_mem d k h)
    rw [hv]
    rfl
  · rw [if_neg h, dGet?_append, dGet?_none_of_not_mem d k h]
    simp [dGet?]

theorem dGet?_setdefaultExtend_ne (d : List (String × List String)) (k q : String)
    (xs : List String) (hne : q ≠ k) :
    dGet? (setdefaultExtend d k xs) q = dGet? d q := by
  unfold setdefaultExtend
  by_cases h : k ∈ dKeys d
  · rw [if_pos h]
    exact dGet?_mapEntry_ne d k q (· ++ xs) hne
  · rw [if_neg h, dGet?_append]
    cases hd : dGet? d q with
    | some w => rfl
    | none =>
      have hkq : ¬ k = q := fun hh => hne hh.symm
      simp [dGet?, hkq]

theorem dictUpdate_eq_append {α : Type} (d m : List (String × α))
    (hm : (dKeys m).Nodup) (hdisj : ∀ k ∈ dKeys m, k ∉ dKeys d) :
    dictUpdate d m = d ++ m := by
  induction m generalizing d with
  | nil => simp [dictUpdate]
  | cons p r ih =>
    have step : dictUpdate d (p :: r) = dictUpdate (dInsert d p.1 p.2) r := rfl
    have hp : p.1 ∉ dKeys d := hdisj p.1 (by simp [dKeys])
    have hins : dInsert d p.1 p.2 = d ++ [(p.1, p.2)] := by
      unfold dInsert
      rw [if_neg hp]
    have e : dKeys (p :: r) = p.1 :: dKeys r := rfl
    rw [e] at hm
    obtain ⟨hph, hrn⟩ := List.nodup_cons.mp hm
    have hdisj2 : ∀ k ∈ dKeys r, k ∉ dKeys (d ++ [(p.1, p.2)]) := by
      intro k hk
      rw [dKeys_append]
      intro hmem
      rcases List.mem_append.mp hmem with hh | hh
      · exact hdisj k (by rw [e]; exact List.mem_cons_of_mem _ hk) hh
      · have : k = p.1 := by simpa [dKeys] using hh
        exact hph (this ▸ hk)
    rw [step, hins, ih _ hrn hdisj2, List.append_assoc]
    rfl

theorem dictUpdate_nil_eq {α : Type} (m : List (String × α)) (hm : (dKeys m).Nodup) :
    dictUpdate [] m = m := by
  rw [dictUpdate_eq_append [] m hm (by simp [dKeys])]
  simp

theorem dKeys_keyMap (ks : List String) (g : String → List String) :
    dKeys (ks.map (fun x => (x, g x))) = ks := by
  simp only [dKeys, List.map_map]
  have hcomp : (Prod.fst ∘ fun x : String => (x, g x)) = id := by
    funext x
    rfl
  rw [hcomp, List.map_id]

theorem dGet?_keyMap (ks : List String) (g : String → List String) (k : String)
    (h : k ∈ ks) : dGet? (ks.map (fun x => (x, g x))) k = some (g k) := by
  induction ks with
  | nil => cases h
  | cons a t ih =>
    by_cases ha : a = k
    · simp [dGet?, ha]
    · have hk : k ∈ t := by
        rcases List.mem_cons.mp h with hh | hh
        · exact absurd hh.symm ha
        · exact hh
      simp [dGet?, ha, ih hk]

/-! ## Provider-map facts -/

theorem provMap_nodup (cfg : List (String × List String)) :
    (dKeys (provMapWithDefaults cfg)).Nodup := by
  unfold provMapWithDefaults
  exact nodup_dKeys_setdefaultExtend _ _ _
    (nodup_dKeys_setdefaultExtend _ _ _
      (nodup_dKeys_setdefaultExtend _ _ _
        (nodup_dKeys_dictUpdate [] cfg (by simp [dKeys]))))

theorem provMap_mem_openai (cfg : List (String × List String)) :
    "OpenAI" ∈ dKeys (provMapWithDefaults cfg) := by
  unfold provMapWithDefaults
  exact mem_dKeys_setdefaultExtend _ _ _ _
    (mem_dKeys_setdefaultExtend _ _ _ _ (self_mem_dKeys_setdefaultExtend _ _ _))

theorem provMap_mem_anthropic (cfg : List (String × List String)) :
    "Anthropic" ∈ dKeys (provMapWithDefaults cfg) := by
  unfold provMapWithDefaults
  exact mem_dKeys_setdefaultExtend _ _ _ _ (self_mem_dKeys_setdefaultExtend _ _ _)

theorem provMap_mem_gemini (cfg : List (String × List String)) :
    "Gemini" ∈ dKeys (provMapWithDefaults cfg) := by
  unfold provMapWithDefaults
  exact self_mem_dKeys_setdefaultExtend _ _ _

theorem provMap_openai_val (cfg : List (String × List String)) :
    dGet? (provMapWithDefaults cfg) "OpenAI"
      = some ((dGet? (dictUpdate [] cfg) "OpenAI").getD [] ++ openaiBuiltins) := by
  unfold provMapWithDefaults
  rw [dGet?_setdefaultExtend_ne _ _ _ _ (by decide),
    dGet?_setdefaultExtend_ne _ _ _ _ (by decide),
    dGet?_setdefaultExtend_self]

theorem provMap_anthropic_val (cfg : List (String × List String)) :
    dGet? (provMapWithDefaults cfg) "Anthropic"
      = some ((dGet? (setdefaultExtend (dictUpdate [] cfg) "OpenAI" openaiBuiltins)
          "Anthropic").getD [] ++ anthropicBuiltins) := by
  unfold provMapWithDefaults
  rw [dGet?_setdefaultExtend_ne _ _ _ _ (by decide),
    dGet?_setdefaultExtend_self]

theorem provMap_gemini_val (cfg : List (String × List String)) :
    dGet? (provMapWithDefaults cfg) "Gemini"
      = some ((dGet? (setdefaultExtend
            (setdefaultExtend (dictUpdate [] cfg) "OpenAI" openaiBuiltins)
            "Anthropic" anthropicBuiltins) "Gemini").getD [] ++ geminiBuiltins) := by
  unfold provMapWithDefaults
  rw [dGet?_setdefaultExtend_self]

theorem merged_providers_shape (cfg : List (String × List String)) :
    merged_providers cfg
      = (sortStr (dKeys ((provMapWithDefaults cfg).map (fun p => (p.1, sortedDedup p.2))))).map
          (fun k =>
            (k, (dGet? ((provMapWithDefaults cfg).map (fun p => (p.1, sortedDedup p.2))) k).getD
              [])) := rfl

theorem dKeys_mapDedup (d : List (String × List String)) :
    dKeys (d.map (fun p => (p.1, sortedDedup p.2))) = dKeys d :=
  dKeys_map_entry d _ (fun _ => rfl)

theorem dKeys_merged (cfg : List (String × List String)) :
    dKeys (merged_providers cfg) = sortStr (dKeys (provMapWithDefaults cfg)) := by
  rw [merged_providers_shape, dKeys_keyMap, dKeys_mapDedup]

theorem merged_val (cfg : List (String × List String)) (k : String)
    (h : k ∈ dKeys (provMapWithDefaults cfg)) :
    dGet? (merged_providers cfg) k
      = some (sortedDedup ((dGet? (provMapWithDefaults cfg) k).getD [])) := by
  rw [merged_providers_shape]
  have hmem : k ∈ sortStr (dKeys ((provMapWithDefaults cfg).map (fun p => (p.1, sortedDedup p.2)))) := by
    rw [dKeys_mapDedup, mem_sortStr]
    exact h
  rw [dGet?_keyMap _ _ _ hmem, dGet?_map_val]
  obtain ⟨w, hw⟩ := Option.isSome_iff_exists.mp (dGet?_isSome_of_mem _ _ h)
  rw [hw]
  rfl

theorem dict_reconstruct (d : List (String × List String)) (hnd : (dKeys d).Nodup) :
    (dKeys d).map (fun k => (k, (dGet? d k).getD [])) = d := by
  induction d with
  | nil => rfl
  | cons p r ih =>
    have e : dKeys (p :: r) = p.1 :: dKeys r := rfl
    rw [e] at hnd ⊢
    obtain ⟨hph, hrn⟩ := List.nodup_cons.mp hnd
    rw [List.map_cons]
    have hhead : (p.1, (dGet? (p :: r) p.1).getD []) = p := by
      simp [dGet?]
    have htail : (dKeys r).map (fun k => (k, (dGet? (p :: r) k).getD []))
        = (dKeys r).map (fun k => (k, (dGet? r k).getD [])) := by
      apply List.map_congr_left
      intro k hk
      have hne : ¬ p.1 = k := fun hh => hph (hh ▸ hk)
      simp [dGet?, hne]
    rw [hhead, htail, ih hrn]

/-- Claim C8: the provider-catalog merge lists provider names in strictly
increasing lexical order, gives each provider a de-duplicated lexically
sorted model list (strict sortedness), and is idempotent: merging the
already-merged list again returns it unchanged.  It is a total function, so
there are no error cases. -/
theorem merged_providers_catalog (config : List (String × List String)) :
    List.Sorted (· < ·) (dKeys (merged_providers config))
    ∧ (∀ p ∈ merged_providers config, List.Sorted (· < ·) p.2)
    ∧ merged_providers (merged_providers config) = merged_providers config := by
  refine ⟨?_, ?_, ?_⟩
  · rw [dKeys_merged]
    exact sorted_lt_sortStr _ (provMap_nodup config)
  · intro p hp
    rw [merged_providers_shape] at hp
    obtain ⟨k, hk, rfl⟩ := List.mem_map.mp hp
    have hkm : k ∈ dKeys (provMapWithDefaults config) := by
      rw [dKeys_mapDedup, mem_sortStr] at hk
      exact hk
    show List.Sorted (· < ·)
      ((dGet? ((provMapWithDefaults config).map (fun q => (q.1, sortedDedup q.2))) k).getD [])
    rw [dGet?_map_val]
    obtain ⟨w, hw⟩ := Option.isSome_iff_exists.mp (dGet?_isSome_of_mem _ _ hkm)
    rw [hw]
    exact sorted_lt_sortedDedup w
  · set out := merged_providers config with hout
    have hOutKeys : dKeys out = sortStr (dKeys (provMapWithDefaults config)) := by
      rw [hout]
      exact dKeys_merged config
    have hOutNodup : (dKeys out).Nodup := by
      rw [hOutKeys]
      exact nodup_sortStr _ (provMap_nodup config)
    have hOutSortedLe : List.Sorted (· ≤ ·) (dKeys out) := by
      rw [hOutKeys]
      exact sorted_le_sortStr _
    have hkeysIff : ∀ k, k ∈ dKeys out ↔ k ∈ dKeys (provMapWithDefaults config) := by
      intro k
      rw [hOutKeys, mem_sortStr]
    have hOmem : "OpenAI" ∈ dKeys out := (hkeysIff _).mpr (provMap_mem_openai config)
    have hAmem : "Anthropic" ∈ dKeys out := (hkeysIff _).mpr (provMap_mem_anthropic config)
    have hGmem : "Gemini" ∈ dKeys out := (hkeysIff _).mpr (provMap_mem_gemini config)
    obtain ⟨wO, hwO, hbO⟩ :
        ∃ w, dGet? (provMapWithDefaults config) "OpenAI" = some w
          ∧ ∀ a ∈ openaiBuiltins, a ∈ w :=
      ⟨_, provMap_openai_val config, fun a ha => List.mem_append_right _ ha⟩
    obtain ⟨wA, hwA, hbA⟩ :
        ∃ w, dGet? (provMapWithDefaults config) "Anthropic" = some w
          ∧ ∀ a ∈ anthropicBuiltins, a ∈ w :=
      ⟨_, provMap_anthropic_val config, fun a ha => List.mem_append_right _ ha⟩
    obtain ⟨wG, hwG, hbG⟩ :
        ∃ w, dGet? (provMapWithDefaults config) "Gemini" = some w
          ∧ ∀ a ∈ geminiBuiltins, a ∈ w :=
      ⟨_, provMap_gemini_val config, fun a ha => List.mem_append_right _ ha⟩
    have hOutValO : dGet? out "OpenAI" = some (sortedDedup wO) := by
      rw [hout, merged_val config _ (provMap_mem_openai config), hwO]
      simp only [Option.getD_some]
    have hOutValA : dGet? out "Anthropic" = some (sortedDedup wA) := by
      rw [hout, merged_val config _ (provMap_mem_anthropic config), hwA]
      simp only [Option.getD_some]
    have hOutValG : dGet? out "Gemini" = some (sortedDedup wG) := by
      rw [hout, merged_val config _ (provMap_mem_gemini config), hwG]
      simp only [Option.getD_some]
    have hq : provMapWithDefaults out
        = setdefaultExtend (setdefaultExtend (setdefaultExtend out "OpenAI" openaiBuiltins)
            "Anthropic" anthropicBuiltins) "Gemini" geminiBuiltins := by
      unfold provMapWithDefaults
      rw [dictUpdate_nil_eq out hOutNodup]
    have hq1k : dKeys (setdefaultExtend out "OpenAI" openaiBuiltins) = dKeys out := by
      rw [dKeys_setdefaultExtend, if_pos hOmem]
    have hq2k : dKeys (setdefaultExtend (setdefaultExtend out "OpenAI" openaiBuiltins)
        "Anthropic" anthropicBuiltins) = dKeys out := by
      rw [dKeys_setdefaultExtend, hq1k, if_pos hAmem]
    have hqk : dKeys (provMapWithDefaults out) = dKeys out := by
      rw [hq, dKeys_setdefaultExtend, hq2k, if_pos hGmem]
    have hq3val : ∀ k, k ∈ dKeys out → k ≠ "OpenAI" → k ≠ "Anthropic" → k ≠ "Gemini" →
        dGet? (provMapWithDefaults out) k = dGet? out k := by
      intro k _ hne1 hne2 hne3
      rw [hq, dGet?_setdefaultExtend_ne _ _ _ _ hne3, dGet?_setdefaultExtend_ne _ _ _ _ hne2,
        dGet?_setdefaultExtend_ne _ _ _ _ hne1]
    have hq3O : dGet? (provMapWithDefaults out) "OpenAI"
        = some (sortedDedup wO ++ openaiBuiltins) := by
      rw [hq, dGet?_setdefaultExtend_ne _ _ _ _ (by decide),
        dGet?_setdefaultExtend_ne _ _ _ _ (by decide), dGet?_setdefaultExtend_self, hOutValO]
      simp only [Option.getD_some]
    have hq3A : dGet? (provMapWithDefaults out) "Anthropic"
        = some (sortedDedup wA ++ anthropicBuiltins) := by
      rw [hq, dGet?_setdefaultExtend_ne _ _ _ _ (by decide), dGet?_setdefaultExtend_self,
        dGet?_setdefaultExtend_ne _ _ _ _ (by decide), hOutValA]
      simp only [Option.getD_some]
    have hq3G : dGet? (provMapWithDefaults out) "Gemini"
        = some (sortedDedup wG ++ geminiBuiltins) := by
      rw [hq, dGet?_setdefaultExtend_self, dGet?_setdefaultExtend_ne _ _ _ _ (by decide),
        dGet?_setdefaultExtend_ne _ _ _ _ (by decide), hOutValG]
      simp only [Option.getD_some]
    rw [merged_providers_shape out, dKeys_mapDedup, hqk, sortStr_eq_self _ hOutSortedLe]
    conv_rhs => rw [← dict_reconstruct out hOutNodup]
    apply List.map_congr_left
    intro k hk
    simp only [Prod.mk.injEq, true_and]
    rw [dGet?_map_val]
    by_cases hkO : k = "OpenAI"
    · subst hkO
      rw [hq3O, hOutValO]
      simp only [Option.map_some', Option.getD_some]
      rw [sortedDedup_append_subset _ _ (fun a ha => (mem_sortedDedup a wO).mpr (hbO a ha))]
      exact sortedDedup_of_strictSorted _ (sorted_lt_sortedDedup wO)
    · by_cases hkA : k = "Anthropic"
      · subst hkA
        rw [hq3A, hOutValA]
        simp only [Option.map_some', Option.getD_some]
        rw [sortedDedup_append_subset _ _ (fun a ha => (mem_sortedDedup a wA).mpr (hbA a ha))]
        exact sortedDedup_of_strictSorted _ (sorted_lt_sortedDedup wA)
      · by_cases hkG : k = "Gemini"
        · subst hkG
          rw [hq3G, hOutValG]
          simp only [Option.map_some', Option.getD_some]
          rw [sortedDedup_append_subset _ _ (fun a ha => (mem_sortedDedup a wG).mpr (hbG a ha))]
          exact sortedDedup_of_strictSorted _ (sorted_lt_sortedDedup wG)
        · rw [hq3val k hk hkO hkA hkG]
          have hkp : k ∈ dKeys (provMapWithDefaults config) := (hkeysIff k).mp hk
          have hOutValk : dGet? out k
              = some (sortedDedup ((dGet? (provMapWithDefaults config) k).getD [])) := by
            rw [hout]
            exact merged_val config k hkp
          rw [hOutValk]
          simp only [Option.map_some', Option.getD_some]
          exact sortedDedup_of_strictSorted _ (sorted_lt_sortedDedup _)
